import Mathlib

/-!
Shallow embedding of the "living dataset" reconciler of the
a1-scraper-profile-living repository.

Two reconciliation variants exist in the source:

* the main variant, `espn preconditioner data merge/postscrapemerge.py`
  (`validate_data`, `merge_ufc_data`): keyed on the `Name` column, it
  concatenates the latest snapshot with the living rows whose name is
  absent from the latest snapshot ("purged" fighters) and drops exact
  full-row duplicates (pandas `drop_duplicates`, keep-first);

* the backup variant,
  `espn preconditioner data merge/backup data do not touch/postscrapemerge.py`
  (`merge_ufc_data`): keyed on the composite key Player|Date|Opponent, it
  starts from the living rows, appends the latest rows whose key is new,
  applies a per-field placeholder-override update to common rows, and
  sorts by (Player ascending, Date descending).

Rows are modelled as structures whose fields are the columns the merge
logic inspects; the remaining columns are carried opaquely.  Pandas
dataframes become Lists of rows, file existence becomes `Option`, and the
filesystem side effects of one `merge_ufc_data` call are returned as an
explicit record of writes.
-/

/-! ## Keep-first deduplication

Pandas `drop_duplicates()` keeps the first occurrence of every duplicated
row.  Mathlib's `List.dedup` keeps the last occurrence, so keep-first
deduplication is last-occurrence deduplication of the reversed list. -/

section DedupFirst

variable {α : Type} [DecidableEq α]

/-- Keep-first full-row deduplication, the model of pandas
`drop_duplicates()`. -/
def dedupF (l : List α) : List α := l.reverse.dedup.reverse

theorem mem_dedupF {a : α} {l : List α} : a ∈ dedupF l ↔ a ∈ l := by
  simp [dedupF]

theorem dedupF_sublist (l : List α) : List.Sublist (dedupF l) l := by
  have h : List.Sublist l.reverse.dedup.reverse l.reverse.reverse :=
    (List.dedup_sublist l.reverse).reverse
  rwa [List.reverse_reverse] at h

theorem dedupF_nodup (l : List α) : (dedupF l).Nodup := by
  unfold dedupF
  rw [List.nodup_reverse]
  exact List.nodup_dedup _

theorem dedup_filter_comm (p : α → Bool) :
    ∀ l : List α, l.dedup.filter p = (l.filter p).dedup := by
  intro l
  induction l with
  | nil => simp
  | cons x xs ih =>
    by_cases hx : x ∈ xs
    · rw [List.dedup_cons_of_mem hx, ih, List.filter_cons]
      by_cases hp : p x = true
      · rw [if_pos hp, List.dedup_cons_of_mem (List.mem_filter.mpr ⟨hx, hp⟩)]
      · rw [if_neg hp]
    · rw [List.dedup_cons_of_not_mem hx, List.filter_cons, List.filter_cons]
      by_cases hp : p x = true
      · rw [if_pos hp, if_pos hp,
          List.dedup_cons_of_not_mem (fun hmem => hx (List.mem_filter.mp hmem).1), ih]
      · rw [if_neg hp, if_neg hp, ih]

theorem filter_dedupF (p : α → Bool) (l : List α) :
    (dedupF l).filter p = dedupF (l.filter p) := by
  unfold dedupF
  rw [List.filter_reverse, dedup_filter_comm, List.filter_reverse]

theorem dedupF_idem (l : List α) : dedupF (dedupF l) = dedupF l := by
  unfold dedupF
  rw [List.reverse_reverse, List.dedup_idem]

theorem dedup_union_eq : ∀ l t : List α, l.dedup ∪ t = l ∪ t := by
  intro l
  induction l with
  | nil => intro t; simp
  | cons x xs ih =>
    intro t
    by_cases hx : x ∈ xs
    · rw [List.dedup_cons_of_mem hx, ih, List.cons_union,
        List.insert_of_mem (List.mem_union_iff.mpr (Or.inl hx))]
    · rw [List.dedup_cons_of_not_mem hx, List.cons_union, List.cons_union, ih]

theorem dedup_dedup_append (zs ws : List α) :
    (zs.dedup ++ ws).dedup = (zs ++ ws).dedup := by
  rw [List.dedup_append, List.dedup_append, dedup_union_eq]

theorem dedupF_append_dedupF (xs ys : List α) :
    dedupF (xs ++ dedupF ys) = dedupF (xs ++ ys) := by
  unfold dedupF
  rw [List.reverse_append, List.reverse_reverse, List.reverse_append,
    dedup_dedup_append]

end DedupFirst

/-! ## Main variant: postscrapemerge.py

A row of one of the ground/clinch/striking CSV files.  The merge logic
only inspects the `Name` and `Division Title` columns; all other columns
are carried opaquely in `rest`.  The required-columns check of
`validate_data` is vacuous here because the row type fixes the schema. -/

structure Row where
  name : String
  divisionTitle : String
  rest : List String
deriving DecidableEq, Repr

/-- Identity key used by `validate_data`: the (Name, Division Title)
pair, as in `df.duplicated(subset=["Name", "Division Title"])`. -/
def mainKey (r : Row) : String × String := (r.name, r.divisionTitle)

/-- Model of `df.duplicated(subset=["Name", "Division Title"], keep=False)`
for a single row: true when the row's key occurs at least twice in the
dataframe. -/
def duplicatedMask (df : List Row) (r : Row) : Bool :=
  decide (2 ≤ df.countP (fun y => decide (mainKey y = mainKey r)))

/-- Model of `validate_data(df, data_type)`: returns `(is_valid, message)`.
An empty dataframe and duplicated (Name, Division Title) keys both make
the dataframe invalid; the duplicate message is prefixed "Warning:" while
the others are prefixed "Error:".  The missing-required-columns branch of
the source cannot fire in this embedding because `Row` fixes the schema. -/
def validate_data (df : List Row) (dataType : String) : Bool × String :=
  if df.isEmpty then
    (false, "Error: " ++ (dataType ++ " DataFrame is empty"))
  else if df.any (duplicatedMask df) then
    (false, "Warning: " ++ (dataType ++ (" contains " ++
      (toString (dedupF ((df.filter (duplicatedMask df)).map Row.name)).length ++
        " fighters with duplicated entries"))))
  else (true, dataType ++ " data validation passed")

/-- The living rows whose `Name` does not occur in the latest snapshot:
`living_data[living_data["Name"].isin(purged_fighters)]`. -/
def purgedRows (living latest : List Row) : List Row :=
  living.filter (fun r => decide (r.name ∉ latest.map Row.name))

/-- The combined dataset computed by `merge_ufc_data` on the general
path: `pd.concat([latest_data, purged_data]).drop_duplicates()`. -/
def mergedData (living latest : List Row) : List Row :=
  dedupF (latest ++ purgedRows living latest)

/-- The statistics dictionary returned by `merge_ufc_data`
(`result_stats` in the source). -/
structure ResultStats where
  status : String
  previous_records : Nat
  new_records : Nat
  total_records : Nat
  new_unique_records : Nat
  preserved_records : Nat
  error : Option String
  backup_created : Option String
  dry_run : Bool
deriving DecidableEq, Repr

/-- The filesystem writes performed by one `merge_ufc_data` call:
whether the dated backup copy was made, and the contents written to the
living file (`none` when the living file is left untouched; the first-run
`shutil.copy` of the latest file is a write of the latest contents). -/
structure Effects where
  backupWritten : Bool
  livingWritten : Option (List Row)
deriving DecidableEq, Repr

/-- Model of `merge_ufc_data(living_file, latest_file, backup, force,
dry_run)`.  `living`/`latest` are the parsed contents of the two files,
`none` meaning the file does not exist.  `backupFileName` stands for the
dated backup path computed by the source and `backupExists` for the
`os.path.exists(backup_file)` same-day check.  Note `max(0, after_count -
len(living_data))` is truncated natural subtraction. -/
def merge_ufc_data (fileType backupFileName : String)
    (living latest : Option (List Row))
    (backup force dryRun backupExists : Bool) : ResultStats × Effects :=
  let base : ResultStats :=
    { status := "failed", previous_records := 0, new_records := 0,
      total_records := 0, new_unique_records := 0, preserved_records := 0,
      error := none, backup_created := none, dry_run := dryRun }
  match living with
  | none =>
    match latest with
    | none =>
      ({ base with
          error := some ("Latest file not found - " ++ fileType) },
       { backupWritten := false, livingWritten := none })
    | some latestData =>
      ({ base with
          status := "success",
          new_records := latestData.length,
          total_records := latestData.length,
          new_unique_records := latestData.length },
       { backupWritten := false,
         livingWritten := if dryRun then none else some latestData })
  | some livingData =>
    let bWritten := backup && !dryRun && !backupExists
    let bc : Option String :=
      if backup && !dryRun then
        (if backupExists then none else some backupFileName)
      else if backup && dryRun then some ("Would create: " ++ backupFileName)
      else none
    let s1 := { base with
                previous_records := livingData.length,
                backup_created := bc }
    let vL := validate_data livingData (fileType ++ " (living)")
    if !vL.1 && !force then
      ({ s1 with error := some vL.2 },
       { backupWritten := bWritten, livingWritten := none })
    else
      match latest with
      | none =>
        ({ s1 with
            status := "skipped",
            error := some ("Latest file not found - " ++ fileType) },
         { backupWritten := bWritten, livingWritten := none })
      | some latestData =>
        let s2 := { s1 with new_records := latestData.length }
        let vN := validate_data latestData (fileType ++ " (latest)")
        if !vN.1 && !force then
          ({ s2 with error := some vN.2 },
           { backupWritten := bWritten, livingWritten := none })
        else
          let combined := mergedData livingData latestData
          ({ s2 with
              status := "success",
              preserved_records := (purgedRows livingData latestData).length,
              total_records := combined.length,
              new_unique_records := combined.length - livingData.length },
           { backupWritten := bWritten,
             livingWritten := if dryRun then none else some combined })

/-! ## Backup variant: backup data do not touch/postscrapemerge.py

A row of the per-fight CSV files.  The composite key is
Player|Date|Opponent; `Event` and `Result` are key columns for the
purposes of the per-field update (they are never overwritten) but are not
part of the composite key.  The data columns are carried as a list of
cells, `none` modelling a pandas NaN. -/

structure BRow where
  player : String
  date : String
  opponent : String
  event : String
  result : String
  data : List (Option String)
deriving DecidableEq, Repr

/-- The composite key `row["Player"] + "|" + str(row["Date"]) + "|" +
row["Opponent"]`. -/
def compositeKey (r : BRow) : String :=
  r.player ++ ("|" ++ (r.date ++ ("|" ++ r.opponent)))

/-- Model of `str(value).strip()` on a cell: a NaN prints as "nan",
otherwise the string is stripped of surrounding whitespace. -/
def sval : Option String → String
  | none => "nan"
  | some s => s.trim

/-- The per-cell update of the backup merge: the latest value replaces
the living value when the living value is empty, the zero token or NaN
while the latest value is none of those, or when the stripped values
differ and the latest value is neither empty, zero nor NaN.  Otherwise
the living value is kept. -/
def updateCell (lv nv : Option String) : Option String :=
  if ((sval lv = "" ∨ sval lv = "0" ∨ lv = none) ∧
        (sval nv ≠ "" ∧ sval nv ≠ "0" ∧ nv ≠ none)) ∨
      (sval nv ≠ sval lv ∧ (sval nv ≠ "" ∧ sval nv ≠ "0" ∧ nv ≠ none)) then
    nv
  else lv

/-- The lookup dictionary `latest_records_dict`: it is filled by
iterating over the latest rows, so the last row with a given composite
key wins. -/
def lookupLast (k : String) : List BRow → Option BRow
  | [] => none
  | r :: rs =>
    match lookupLast k rs with
    | some x => some x
    | none => if compositeKey r = k then some r else none

/-- The update applied to one row of the working result: rows whose
composite key lies in both snapshots have each data cell merged with the
corresponding cell of the (last) latest row of that key; all other rows
are left unchanged. -/
def updateIfCommon (living latest : List BRow) (r : BRow) : BRow :=
  if compositeKey r ∈ living.map compositeKey ∧
      compositeKey r ∈ latest.map compositeKey then
    match lookupLast (compositeKey r) latest with
    | some nrow => { r with data := List.zipWith updateCell r.data nrow.data }
    | none => r
  else r

/-- The latest rows whose composite key does not occur in the living
snapshot (`records_to_add`). -/
def onlyInLatest (living latest : List BRow) : List BRow :=
  latest.filter (fun r => decide (compositeKey r ∉ living.map compositeKey))

/-- The sort order of step 5 of the backup merge:
`sort_values(by=["Player", "Date"], ascending=[True, False])`, that is
player ascending and, for equal players, date descending. -/
def rowOrd (a b : BRow) : Prop :=
  a.player < b.player ∨ (a.player = b.player ∧ b.date ≤ a.date)

instance rowOrdDecidable : DecidableRel rowOrd := fun a b => by
  unfold rowOrd
  infer_instance

instance rowOrdTotal : IsTotal BRow rowOrd := by
  constructor
  intro a b
  rcases lt_trichotomy a.player b.player with h | h | h
  · exact Or.inl (Or.inl h)
  · rcases le_total a.date b.date with hd | hd
    · exact Or.inr (Or.inr ⟨h.symm, hd⟩)
    · exact Or.inl (Or.inr ⟨h, hd⟩)
  · exact Or.inr (Or.inl h)

instance rowOrdTrans : IsTrans BRow rowOrd := by
  constructor
  intro a b c hab hbc
  rcases hab with hab | ⟨hab, hd1⟩
  · rcases hbc with hbc | ⟨hbc, _⟩
    · exact Or.inl (lt_trans hab hbc)
    · exact Or.inl (hbc ▸ hab)
  · rcases hbc with hbc | ⟨hbc, hd2⟩
    · exact Or.inl (hab ▸ hbc)
    · exact Or.inr ⟨hab.trans hbc, le_trans hd2 hd1⟩

/-- Model of the backup variant `merge_ufc_data` dataframe computation:
start from the living rows, append the latest rows with a new composite
key, update the rows with a common key cell by cell, drop the helper key
column (a no-op here) and sort by (Player ascending, Date descending). -/
def mergeBackupData (living latest : List BRow) : List BRow :=
  List.insertionSort rowOrd
    ((living ++ onlyInLatest living latest).map (updateIfCommon living latest))

/-! ## Concrete example rows used by witnesses and counterexamples -/

def rowA : Row := { name := "A", divisionTitle := "W", rest := ["1"] }

/-- Same (Name, Division Title) key as `rowA` but a different full row. -/
def rowA2 : Row := { name := "A", divisionTitle := "W", rest := ["2"] }

def rowB : Row := { name := "B", divisionTitle := "W", rest := ["3"] }

def rowOld : Row := { name := "Old", divisionTitle := "W", rest := ["4"] }

def rowAlpha : Row := { name := "Alpha", divisionTitle := "W", rest := [] }

def rowZed : Row := { name := "Zed", divisionTitle := "W", rest := [] }

/-! ## Helper lemmas about the main merge -/

/-- On the non-first-run path with both files present and no dry run, the
contents written to the living file can only be `mergedData`. -/
theorem written_eq_mergedData (ft bfn : String) (livingData latestData : List Row)
    (b f be : Bool) (r : List Row)
    (hw : (merge_ufc_data ft bfn (some livingData) (some latestData)
        b f false be).2.livingWritten = some r) :
    r = mergedData livingData latestData := by
  simp only [merge_ufc_data] at hw
  split at hw
  · simp at hw
  · split at hw
    · simp at hw
    · simp at hw
      exact hw.symm

/-- Any name occurring in either snapshot occurs in `mergedData`. -/
theorem mem_name_mergedData (livingData latestData : List Row) (k : String)
    (hk : k ∈ livingData.map Row.name ∨ k ∈ latestData.map Row.name) :
    k ∈ (mergedData livingData latestData).map Row.name := by
  unfold mergedData purgedRows
  rcases hk with hk | hk
  · rcases List.mem_map.mp hk with ⟨r, hrL, hr⟩
    by_cases hmem : r.name ∈ latestData.map Row.name
    · rcases List.mem_map.mp hmem with ⟨s, hsN, hs⟩
      exact List.mem_map.mpr
        ⟨s, mem_dedupF.mpr (List.mem_append.mpr (Or.inl hsN)), by rw [hs, hr]⟩
    · have hrP : r ∈ livingData.filter
          (fun r => decide (r.name ∉ latestData.map Row.name)) :=
        List.mem_filter.mpr ⟨hrL, by simpa using hmem⟩
      exact List.mem_map.mpr
        ⟨r, mem_dedupF.mpr (List.mem_append.mpr (Or.inr hrP)), hr⟩
  · rcases List.mem_map.mp hk with ⟨s, hsN, hs⟩
    exact List.mem_map.mpr
      ⟨s, mem_dedupF.mpr (List.mem_append.mpr (Or.inl hsN)), hs⟩

/-- C1: Union preservation.  For every living snapshot and latest
snapshot on which the merge succeeds (and writes a result), every
identity key (fighter name) present in either input is present in the
written living dataset. -/
theorem merge_union_preservation (ft bfn : String)
    (livingData latestData : List Row) (b f be : Bool)
    (r : List Row) (k : String)
    (hw : (merge_ufc_data ft bfn (some livingData) (some latestData)
        b f false be).2.livingWritten = some r)
    (hk : k ∈ livingData.map Row.name ∨ k ∈ latestData.map Row.name) :
    k ∈ r.map Row.name := by
  have hr := written_eq_mergedData ft bfn livingData latestData b f be r hw
  subst hr
  exact mem_name_mergedData livingData latestData k hk

/-- Witness for C1 at a concrete input: "Old" is only in the living
snapshot and survives into the written result. -/
theorem merge_union_preservation_witness :
    (merge_ufc_data "t" "bk" (some [rowOld]) (some [rowA])
        false false false false).2.livingWritten = some [rowA, rowOld] ∧
    ("Old" ∈ [rowOld].map Row.name ∨ "Old" ∈ [rowA].map Row.name) ∧
    "Old" ∈ [rowA, rowOld].map Row.name :=
  ⟨by decide, Or.inl (by decide),
    merge_union_preservation "t" "bk" [rowOld] [rowA] false false false
      [rowA, rowOld] "Old" (by decide) (Or.inl (by decide))⟩

/-- C4: Purge preservation.  Every living record whose name does not
occur anywhere in the latest snapshot is contained, unchanged, in the
written merged result. -/
theorem merge_purge_preservation (ft bfn : String)
    (livingData latestData : List Row) (b f be : Bool)
    (r : List Row) (x : Row)
    (hw : (merge_ufc_data ft bfn (some livingData) (some latestData)
        b f false be).2.livingWritten = some r)
    (hx : x ∈ livingData)
    (hname : x.name ∉ latestData.map Row.name) :
    x ∈ r := by
  have hr := written_eq_mergedData ft bfn livingData latestData b f be r hw
  subst hr
  unfold mergedData purgedRows
  exact mem_dedupF.mpr (List.mem_append.mpr
    (Or.inr (List.mem_filter.mpr ⟨hx, by simpa using hname⟩)))

/-- Witness for C4 at a concrete input: the purged record `rowOld` is
kept verbatim. -/
theorem merge_purge_preservation_witness :
    (merge_ufc_data "t" "bk" (some [rowOld]) (some [rowA])
        false false false false).2.livingWritten = some [rowA, rowOld] ∧
    rowOld ∈ [rowOld] ∧
    rowOld.name ∉ [rowA].map Row.name ∧
    rowOld ∈ [rowA, rowOld] :=
  ⟨by decide, by decide, by decide,
    merge_purge_preservation "t" "bk" [rowOld] [rowA] false false false
      [rowA, rowOld] rowOld (by decide) (by decide) (by decide)⟩

/-- C6: First run.  When the living file does not exist and the latest
file does, the latest snapshot is copied verbatim as the new living
dataset and the report counts are the size of the latest snapshot, with
nothing preserved. -/
theorem merge_first_run (ft bfn : String) (latestData : List Row)
    (b f be : Bool) :
    (merge_ufc_data ft bfn none (some latestData)
        b f false be).2.livingWritten = some latestData ∧
    (merge_ufc_data ft bfn none (some latestData)
        b f false be).1.status = "success" ∧
    (merge_ufc_data ft bfn none (some latestData)
        b f false be).1.new_unique_records = latestData.length ∧
    (merge_ufc_data ft bfn none (some latestData)
        b f false be).1.new_records = latestData.length ∧
    (merge_ufc_data ft bfn none (some latestData)
        b f false be).1.total_records = latestData.length ∧
    (merge_ufc_data ft bfn none (some latestData)
        b f false be).1.preserved_records = 0 := by
  simp [merge_ufc_data]

/-- C2 counterexample: the dataset is unchanged by a second run with the
same latest snapshot, but the report counts of the two runs differ:
the first run reports previous_records = 1 and new_unique_records = 1,
the second previous_records = 2 and new_unique_records = 0.  This
refutes the claim that all report counts are unchanged. -/
theorem merge_rerun_report_changes :
    (merge_ufc_data "t" "bk" (some [rowA]) (some [rowA, rowB])
        false false false false).2.livingWritten = some [rowA, rowB] ∧
    (merge_ufc_data "t" "bk" (some [rowA, rowB]) (some [rowA, rowB])
        false false false false).2.livingWritten = some [rowA, rowB] ∧
    (merge_ufc_data "t" "bk" (some [rowA]) (some [rowA, rowB])
        false false false false).1.previous_records = 1 ∧
    (merge_ufc_data "t" "bk" (some [rowA, rowB]) (some [rowA, rowB])
        false false false false).1.previous_records = 2 ∧
    (merge_ufc_data "t" "bk" (some [rowA]) (some [rowA, rowB])
        false false false false).1.new_unique_records = 1 ∧
    (merge_ufc_data "t" "bk" (some [rowA, rowB]) (some [rowA, rowB])
        false false false false).1.new_unique_records = 0 := by
  refine ⟨?_, ?_, ?_, ?_, ?_, ?_⟩ <;> decide

/-- C2 amended: running the merge a second time with the same latest
snapshot against the result of the first run leaves the dataset (and
hence the total record count) unchanged. -/
theorem mergedData_idempotent (livingData latestData : List Row) :
    mergedData (mergedData livingData latestData) latestData =
      mergedData livingData latestData := by
  unfold mergedData
  have hpur : purgedRows (dedupF (latestData ++ purgedRows livingData latestData))
      latestData = dedupF (purgedRows livingData latestData) := by
    unfold purgedRows
    rw [filter_dedupF, List.filter_append]
    have h1 : latestData.filter
        (fun r => decide (r.name ∉ latestData.map Row.name)) = [] := by
      apply List.filter_eq_nil_iff.mpr
      intro r hr
      simp [List.mem_map_of_mem Row.name hr]
    have h2 : (livingData.filter
          (fun r => decide (r.name ∉ latestData.map Row.name))).filter
          (fun r => decide (r.name ∉ latestData.map Row.name)) =
        livingData.filter (fun r => decide (r.name ∉ latestData.map Row.name)) :=
      List.filter_eq_self.mpr (fun a ha => (List.mem_filter.mp ha).2)
    rw [h1, h2, List.nil_append]
  rw [hpur, dedupF_append_dedupF]

/-- C8: Dry-run purity.  With the dry-run flag set the merge writes
nothing at all (no backup, no initial copy, no living file update),
regardless of outcome, and computes the same status and the same counts
as the corresponding real run. -/
theorem merge_dry_run_pure (ft bfn : String)
    (living latest : Option (List Row)) (b f be : Bool) :
    (merge_ufc_data ft bfn living latest b f true be).2.backupWritten = false ∧
    (merge_ufc_data ft bfn living latest b f true be).2.livingWritten = none ∧
    (merge_ufc_data ft bfn living latest b f true be).1.status =
      (merge_ufc_data ft bfn living latest b f false be).1.status ∧
    (merge_ufc_data ft bfn living latest b f true be).1.previous_records =
      (merge_ufc_data ft bfn living latest b f false be).1.previous_records ∧
    (merge_ufc_data ft bfn living latest b f true be).1.new_records =
      (merge_ufc_data ft bfn living latest b f false be).1.new_records ∧
    (merge_ufc_data ft bfn living latest b f true be).1.total_records =
      (merge_ufc_data ft bfn living latest b f false be).1.total_records ∧
    (merge_ufc_data ft bfn living latest b f true be).1.new_unique_records =
      (merge_ufc_data ft bfn living latest b f false be).1.new_unique_records ∧
    (merge_ufc_data ft bfn living latest b f true be).1.preserved_records =
      (merge_ufc_data ft bfn living latest b f false be).1.preserved_records := by
  cases living with
  | none => cases latest <;> simp [merge_ufc_data]
  | some livingData =>
    cases latest with
    | none =>
      by_cases h1 :
          (!(validate_data livingData (ft ++ " (living)")).1 && !f) = true <;>
        simp [merge_ufc_data, h1]
    | some latestData =>
      by_cases h1 :
          (!(validate_data livingData (ft ++ " (living)")).1 && !f) = true <;>
        by_cases h2 :
            (!(validate_data latestData (ft ++ " (latest)")).1 && !f) = true <;>
          simp [merge_ufc_data, h1, h2]

/-- C10: the reported new_unique_records of a successful non-first-run
merge equals max(0, total_records - previous_records); in particular it
is clamped to zero when the merged result has fewer rows than the
previous living dataset. -/
theorem merge_new_unique_clamped (ft bfn : String)
    (livingData latestData : List Row) (b f d be : Bool)
    (hs : (merge_ufc_data ft bfn (some livingData) (some latestData)
        b f d be).1.status = "success") :
    ((merge_ufc_data ft bfn (some livingData) (some latestData)
        b f d be).1.new_unique_records : Int) =
      max 0
        (((merge_ufc_data ft bfn (some livingData) (some latestData)
            b f d be).1.total_records : Int) -
          ((merge_ufc_data ft bfn (some livingData) (some latestData)
              b f d be).1.previous_records : Int)) := by
  by_cases h1 : (!(validate_data livingData (ft ++ " (living)")).1 && !f) = true
  · simp [merge_ufc_data, h1] at hs
  · by_cases h2 : (!(validate_data latestData (ft ++ " (latest)")).1 && !f) = true
    · simp [merge_ufc_data, h1, h2] at hs
    · simp [merge_ufc_data, h1, h2]
      omega

/-- Witness for C10 at a concrete input: one genuinely new record, so
the clamp evaluates to 1. -/
theorem merge_new_unique_clamped_witness :
    (merge_ufc_data "t" "bk" (some [rowA]) (some [rowA, rowB])
        false false false false).1.status = "success" ∧
    ((merge_ufc_data "t" "bk" (some [rowA]) (some [rowA, rowB])
        false false false false).1.new_unique_records : Int) =
      max 0
        (((merge_ufc_data "t" "bk" (some [rowA]) (some [rowA, rowB])
            false false false false).1.total_records : Int) -
          ((merge_ufc_data "t" "bk" (some [rowA]) (some [rowA, rowB])
              false false false false).1.previous_records : Int)) :=
  ⟨by decide,
    merge_new_unique_clamped "t" "bk" [rowA] [rowA, rowB] false false false
      false (by decide)⟩

/-- C5 counterexample: a living snapshot with a duplicated
(Name, Division Title) key and force off.  The validator reports a
"Warning:"-prefixed message, yet the merge aborts: status is "failed"
and nothing is written.  This refutes the claim that the merge still
proceeds when the force flag is false. -/
theorem duplicate_validation_aborts_cex :
    (merge_ufc_data "striking_data" "bk" (some [rowA, rowA2]) (some [rowB])
        false false false false).1.status = "failed" ∧
    (merge_ufc_data "striking_data" "bk" (some [rowA, rowA2]) (some [rowB])
        false false false false).2.livingWritten = none ∧
    (merge_ufc_data "striking_data" "bk" (some [rowA, rowA2]) (some [rowB])
        false false false false).1.error =
      some "Warning: striking_data (living) contains 1 fighters with duplicated entries" := by
  refine ⟨?_, ?_, ?_⟩ <;> decide

/-- C5 amended: a duplicated identity key makes `validate_data` return
invalid with a "Warning:"-prefixed message, and the merge then aborts
(status "failed", nothing written) when force is false; with force true
the merge proceeds to success. -/
theorem duplicate_validation_requires_force (ft bfn t : String)
    (df latestData : List Row) (b be : Bool)
    (hne : df.isEmpty = false)
    (hdup : df.any (duplicatedMask df) = true) :
    (validate_data df t).1 = false ∧
    (∃ tail, (validate_data df t).2 = "Warning: " ++ tail) ∧
    (merge_ufc_data ft bfn (some df) (some latestData)
        b false false be).1.status = "failed" ∧
    (merge_ufc_data ft bfn (some df) (some latestData)
        b false false be).2.livingWritten = none ∧
    (merge_ufc_data ft bfn (some df) (some latestData)
        b true false be).1.status = "success" := by
  refine ⟨?_, ?_, ?_, ?_, ?_⟩
  · simp [validate_data, hne, hdup]
  · have hmsg : (validate_data df t).2 = "Warning: " ++ (t ++ (" contains " ++
        (toString (dedupF ((df.filter (duplicatedMask df)).map Row.name)).length ++
          " fighters with duplicated entries"))) := by
      simp [validate_data, hne, hdup]
    exact ⟨_, hmsg⟩
  · simp [merge_ufc_data, validate_data, hne, hdup]
  · simp [merge_ufc_data, validate_data, hne, hdup]
  · simp [merge_ufc_data, validate_data, hne, hdup]

/-- Witness for C5 (amended) at a concrete input with a duplicated
(Name, Division Title) key. -/
theorem duplicate_validation_requires_force_witness :
    [rowA, rowA2].isEmpty = false ∧
    [rowA, rowA2].any (duplicatedMask [rowA, rowA2]) = true ∧
    ((validate_data [rowA, rowA2] "x").1 = false ∧
      (∃ tail, (validate_data [rowA, rowA2] "x").2 = "Warning: " ++ tail) ∧
      (merge_ufc_data "t" "bk" (some [rowA, rowA2]) (some [rowB])
          false false false false).1.status = "failed" ∧
      (merge_ufc_data "t" "bk" (some [rowA, rowA2]) (some [rowB])
          false false false false).2.livingWritten = none ∧
      (merge_ufc_data "t" "bk" (some [rowA, rowA2]) (some [rowB])
          false true false false).1.status = "success") :=
  ⟨by decide, by decide,
    duplicate_validation_requires_force "t" "bk" "x" [rowA, rowA2] [rowB]
      false false (by decide) (by decide)⟩

/-- The order asserted by the sort clause of the specification for the
main variant, stated on the Name column: every row's name is at most the
name of every later row. -/
def sortedByName (l : List Row) : Prop :=
  List.Pairwise (fun a b => a.name < b.name ∨ a.name = b.name) l

/-- C7 counterexample: a successful main-variant merge whose written
result is ["Zed", "Alpha"], not sorted by name ascending — the main
variant performs no sort at all. -/
theorem merge_output_not_sorted_cex :
    (merge_ufc_data "t" "bk" (some [rowAlpha]) (some [rowZed])
        false false false false).1.status = "success" ∧
    (merge_ufc_data "t" "bk" (some [rowAlpha]) (some [rowZed])
        false false false false).2.livingWritten = some [rowZed, rowAlpha] ∧
    ¬ sortedByName [rowZed, rowAlpha] := by
  refine ⟨by decide, by decide, ?_⟩
  intro h
  rcases List.pairwise_cons.mp h with ⟨h3, _⟩
  rcases h3 rowAlpha (by simp) with hlt | heq
  · rw [show rowZed.name = "Zed" from rfl,
      show rowAlpha.name = "Alpha" from rfl, String.lt_iff_toList_lt] at hlt
    exact absurd hlt (by decide)
  · exact absurd heq (by decide)

/-- C7 amended: only the backup (composite-key) variant sorts its
result, by Player ascending and Date descending. -/
theorem backup_merge_sorted (livingData latestData : List BRow) :
    List.Sorted rowOrd (mergeBackupData livingData latestData) :=
  List.sorted_insertionSort rowOrd _

/-! ## Helper lemmas about the backup merge -/

theorem lookupLast_mem_keys {k : String} :
    ∀ {latestData : List BRow} {x : BRow},
      lookupLast k latestData = some x → k ∈ latestData.map compositeKey := by
  intro latestData
  induction latestData with
  | nil => intro x h; simp [lookupLast] at h
  | cons r rs ih =>
    intro x h
    simp only [lookupLast] at h
    cases hrec : lookupLast k rs with
    | some y =>
      rw [hrec] at h
      exact List.mem_map.mpr
        (by rcases List.mem_map.mp (ih hrec) with ⟨s, hs, he⟩
            exact ⟨s, List.mem_cons_of_mem r hs, he⟩)
    | none =>
      rw [hrec] at h
      by_cases hk : compositeKey r = k
      · rw [List.map_cons, ← hk]
        exact List.mem_cons_self _ _
      · rw [if_neg hk] at h
        simp at h

theorem zipWith_get?_eq {α β γ : Type} (f : α → β → γ) :
    ∀ (as : List α) (bs : List β) (i : Nat) (a : α) (b : β),
      as.get? i = some a → bs.get? i = some b →
      (List.zipWith f as bs).get? i = some (f a b) := by
  intro as
  induction as with
  | nil => intro bs i a b ha _; simp at ha
  | cons x xs ih =>
    intro bs i a b ha hb
    cases bs with
    | nil => simp at hb
    | cons y ys =>
      cases i with
      | zero =>
        simp only [List.get?] at ha hb
        have hxa : x = a := Option.some.inj ha
        have hyb : y = b := Option.some.inj hb
        simp [List.zipWith, hxa, hyb]
      | succ n =>
        simp only [List.get?] at ha hb ⊢
        exact ih ys n a b ha hb

/-- C3: Placeholder override in the backup (composite-key) merge.  For a
living row whose composite key also occurs in the latest snapshot, the
updated row appears in the merged result, and cell by cell: a living
value that is empty or the zero token is replaced by a latest value that
is neither empty, zero nor missing, while a non-empty living value is
kept whenever the latest value is empty or zero. -/
theorem placeholder_override (livingData latestData : List BRow)
    (r nrow : BRow) (i : Nat) (lv nv : Option String)
    (hr : r ∈ livingData)
    (hl : lookupLast (compositeKey r) latestData = some nrow)
    (hlv : r.data.get? i = some lv)
    (hnv : nrow.data.get? i = some nv) :
    updateIfCommon livingData latestData r ∈ mergeBackupData livingData latestData ∧
    ((sval lv = "" ∨ sval lv = "0") →
      (sval nv ≠ "" ∧ sval nv ≠ "0" ∧ nv ≠ none) →
      (updateIfCommon livingData latestData r).data.get? i = some nv) ∧
    ((sval lv ≠ "") → (sval nv = "" ∨ sval nv = "0") →
      (updateIfCommon livingData latestData r).data.get? i = some lv) := by
  have hcommon : compositeKey r ∈ livingData.map compositeKey ∧
      compositeKey r ∈ latestData.map compositeKey :=
    ⟨List.mem_map_of_mem _ hr, lookupLast_mem_keys hl⟩
  have hupd : updateIfCommon livingData latestData r =
      { r with data := List.zipWith updateCell r.data nrow.data } := by
    unfold updateIfCommon
    rw [if_pos hcommon, hl]
  refine ⟨?_, ?_, ?_⟩
  · have h1 : r ∈ livingData ++ onlyInLatest livingData latestData :=
      List.mem_append.mpr (Or.inl hr)
    have h2 : updateIfCommon livingData latestData r ∈
        (livingData ++ onlyInLatest livingData latestData).map
          (updateIfCommon livingData latestData) :=
      List.mem_map_of_mem _ h1
    unfold mergeBackupData
    exact (List.perm_insertionSort rowOrd _).mem_iff.mpr h2
  · intro hph hact
    rw [hupd]
    have hz : (List.zipWith updateCell r.data nrow.data).get? i =
        some (updateCell lv nv) :=
      zipWith_get?_eq updateCell r.data nrow.data i lv nv hlv hnv
    simp only [hz]
    have : updateCell lv nv = nv := by
      unfold updateCell
      rcases hph with hph | hph
      · rw [if_pos (Or.inl ⟨Or.inl hph, hact⟩)]
      · rw [if_pos (Or.inl ⟨Or.inr (Or.inl hph), hact⟩)]
    rw [this]
  · intro _ hnph
    rw [hupd]
    have hz : (List.zipWith updateCell r.data nrow.data).get? i =
        some (updateCell lv nv) :=
      zipWith_get?_eq updateCell r.data nrow.data i lv nv hlv hnv
    simp only [hz]
    have : updateCell lv nv = lv := by
      unfold updateCell
      rw [if_neg]
      intro hcond
      have hact : sval nv ≠ "" ∧ sval nv ≠ "0" ∧ nv ≠ none := by
        rcases hcond with ⟨_, hq⟩ | ⟨_, hq⟩ <;> exact hq
      rcases hnph with h | h
      · exact hact.1 h
      · exact hact.2.1 h
    rw [this]

def browLiving : BRow :=
  { player := "A", date := "2020-01-01", opponent := "B", event := "UFC 1",
    result := "W", data := [some "0", some "5"] }

def browLatest : BRow :=
  { player := "A", date := "2020-01-01", opponent := "B", event := "UFC 1",
    result := "W", data := [some "7", some ""] }

/-- Witness for C3 at a concrete input: cell 0 is the placeholder "0" in
the living row and "7" in the latest row. -/
theorem placeholder_override_witness :
    browLiving ∈ [browLiving] ∧
    lookupLast (compositeKey browLiving) [browLatest] = some browLatest ∧
    browLiving.data.get? 0 = some (some "0") ∧
    browLatest.data.get? 0 = some (some "7") ∧
    (updateIfCommon [browLiving] [browLatest] browLiving ∈
        mergeBackupData [browLiving] [browLatest] ∧
      ((sval (some "0") = "" ∨ sval (some "0") = "0") →
        (sval (some "7") ≠ "" ∧ sval (some "7") ≠ "0" ∧ (some "7" : Option String) ≠ none) →
        (updateIfCommon [browLiving] [browLatest] browLiving).data.get? 0 =
          some (some "7")) ∧
      ((sval (some "0") ≠ "") → (sval (some "7") = "" ∨ sval (some "7") = "0") →
        (updateIfCommon [browLiving] [browLatest] browLiving).data.get? 0 =
          some (some "0"))) :=
  ⟨by decide, by decide, by decide, by decide,
    placeholder_override [browLiving] [browLatest] browLiving browLatest 0
      (some "0") (some "7") (by decide) (by decide) (by decide) (by decide)⟩

/-- C9: the final deduplication removes only rows equal in every column
(it is a sublist of the input, preserves membership, and leaves no two
fully equal rows), and the merged result can still contain several rows
sharing one identity key: merging a latest snapshot with a duplicated
key under the force flag succeeds and writes two rows named "A". -/
theorem dedup_full_row_only :
    (∀ l : List Row, List.Sublist (dedupF l) l) ∧
    (∀ (l : List Row) (a : Row), a ∈ dedupF l ↔ a ∈ l) ∧
    (∀ l : List Row, (dedupF l).Nodup) ∧
    (merge_ufc_data "t" "bk" (some [rowOld]) (some [rowA, rowA2])
        false true false false).1.status = "success" ∧
    (merge_ufc_data "t" "bk" (some [rowOld]) (some [rowA, rowA2])
        false true false false).2.livingWritten = some [rowA, rowA2, rowOld] ∧
    ¬ ([rowA, rowA2, rowOld].map Row.name).Nodup :=
  ⟨dedupF_sublist, fun _ _ => mem_dedupF, dedupF_nodup,
    by decide, by decide, by decide⟩
